import Mathlib

/-!
BLE UUID constants of the run/walk activity classifier

Shallow embedding of `src/ble_uuid.h`: the three string literals that name the
custom BLE service and its two characteristics, together with the character
and hexadecimal vocabulary needed to state their format.

`src/run_walk_model_data.h` only declares `g_run_walk_model_data` and
`g_run_walk_model_data_len` as `extern`; their definition is not part of the
sources, so nothing about their values is embedded here.
-/

namespace BleUuid

/-! Constants of `ble_uuid.h` -/

/-- Service UUID string literal, `ble_uuid.h` line 19. -/
def BLE_UUID_ACTIVITY_SERVICE : String := "a2e2c2a6-08c3-4d68-b80a-1fab55ba1dd0"

/-- Label characteristic identifier, `ble_uuid.h` line 20. -/
def BLE_UUID_LABEL : String := "0000"

/-- Score characteristic identifier, `ble_uuid.h` line 21. -/
def BLE_UUID_SCORE : String := "aaaa"

/-! Character vocabulary -/

/-- Decimal digit `0`-`9`. -/
def isDecDigit (c : Char) : Bool := decide ('0' ≤ c) && decide (c ≤ '9')

/-- Lowercase hexadecimal letter `a`-`f`. -/
def isLowerHexLetter (c : Char) : Bool := decide ('a' ≤ c) && decide (c ≤ 'f')

/-- Uppercase hexadecimal letter `A`-`F`. -/
def isUpperHexLetter (c : Char) : Bool := decide ('A' ≤ c) && decide (c ≤ 'F')

/-- Hexadecimal digit: `0`-`9`, `a`-`f` or `A`-`F`. -/
def isHexDigit (c : Char) : Bool :=
  isDecDigit c || isLowerHexLetter c || isUpperHexLetter c

/-- Character allowed in a lowercase hyphenated UUID: `0`-`9`, `a`-`f` or `-`. -/
def isLowerUuidChar (c : Char) : Bool :=
  isDecDigit c || isLowerHexLetter c || c == '-'

/-- Value of one hexadecimal digit, read case-insensitively. -/
def hexDigitValue (c : Char) : Option Nat :=
  if isDecDigit c then some (c.toNat - '0'.toNat)
  else if isLowerHexLetter c then some (c.toNat - 'a'.toNat + 10)
  else if isUpperHexLetter c then some (c.toNat - 'A'.toNat + 10)
  else none

/-- Value of a list of hexadecimal digits, most significant first, on top of
the accumulator `acc`. -/
def hexValueAux : Nat → List Char → Option Nat
  | acc, [] => some acc
  | acc, c :: cs =>
    match hexDigitValue c with
    | some d => hexValueAux (16 * acc + d) cs
    | none => none

/-- Value of a string read as a hexadecimal number; `none` when the string is
empty or holds a character that is not a hexadecimal digit. -/
def hexValue (s : String) : Option Nat :=
  match s.data with
  | [] => none
  | cs => hexValueAux 0 cs

/-! Format validator -/

/-- Groups of a character list, cut at every hyphen (the hyphens themselves are
dropped; `n` hyphens give `n + 1` groups, possibly empty ones). -/
def splitHyphen : List Char → List (List Char)
  | [] => [[]]
  | c :: cs =>
    if c = '-' then [] :: splitHyphen cs
    else
      match splitHyphen cs with
      | [] => [[c]]
      | g :: gs => (c :: g) :: gs

/-- Group lengths of the 8-4-4-4-12 layout. -/
def uuidGroupLengths : List Nat := [8, 4, 4, 4, 12]

/-- Modelled from the spec: the service-UUID format validator, which the
repository does not contain (the headers only define the constants). A string
is well-formed when cutting it at its hyphens gives exactly five groups of
8, 4, 4, 4 and 12 characters, all of them hexadecimal digits. -/
def isValidServiceUuid (s : String) : Bool :=
  ((splitHyphen s.data).map List.length == uuidGroupLengths) &&
    (splitHyphen s.data).all (fun g => g.all isHexDigit)

/-! Helper lemmas -/

/-- Cutting at hyphens loses one character per cut: the group lengths plus the
number of groups add up to the input length plus one. -/
theorem splitHyphen_length_sum (l : List Char) :
    ((splitHyphen l).map List.length).sum + (splitHyphen l).length = l.length + 1 := by
  induction l with
  | nil => simp [splitHyphen]
  | cons c cs ih =>
    by_cases hc : c = '-'
    · simp only [splitHyphen, hc, if_true, List.map_cons, List.sum_cons, List.length_cons,
        List.length_nil]
      omega
    · simp only [splitHyphen, hc, if_false]
      cases hs : splitHyphen cs with
      | nil => simp [hs] at ih
      | cons g gs =>
        rw [hs] at ih
        simp only [List.map_cons, List.sum_cons, List.length_cons] at ih ⊢
        omega

/-- A string accepted by the validator has 36 characters. -/
theorem isValidServiceUuid_length (s : String) (h : isValidServiceUuid s = true) :
    s.length = 36 := by
  unfold isValidServiceUuid at h
  rw [Bool.and_eq_true] at h
  have hlen : (splitHyphen s.data).map List.length = uuidGroupLengths := by
    simpa using h.1
  have hsum := splitHyphen_length_sum s.data
  have hcount : (splitHyphen s.data).length = 5 := by
    have := congrArg List.length hlen
    simpa [uuidGroupLengths] using this
  rw [hlen, hcount] at hsum
  simp only [uuidGroupLengths, List.sum_cons, List.sum_nil] at hsum
  have : s.length = s.data.length := rfl
  omega

/-- A hexadecimal digit has a value, and it is below 16. -/
theorem hexDigitValue_lt (c : Char) (h : isHexDigit c = true) :
    ∃ d, hexDigitValue c = some d ∧ d < 16 := by
  have key : ∀ a b : Char, a ≤ b ↔ a.toNat ≤ b.toNat := fun a b => Iff.rfl
  unfold hexDigitValue
  unfold isHexDigit at h
  by_cases h1 : isDecDigit c = true
  · refine ⟨_, if_pos h1, ?_⟩
    simp only [isDecDigit, Bool.and_eq_true, decide_eq_true_eq, key] at h1
    have e0 : '0'.toNat = 48 := rfl
    have e9 : '9'.toNat = 57 := rfl
    omega
  · by_cases h2 : isLowerHexLetter c = true
    · rw [if_neg h1, if_pos h2]
      refine ⟨_, rfl, ?_⟩
      simp only [isLowerHexLetter, Bool.and_eq_true, decide_eq_true_eq, key] at h2
      have ea : 'a'.toNat = 97 := rfl
      have ef : 'f'.toNat = 102 := rfl
      omega
    · by_cases h3 : isUpperHexLetter c = true
      · rw [if_neg h1, if_neg h2, if_pos h3]
        refine ⟨_, rfl, ?_⟩
        simp only [isUpperHexLetter, Bool.and_eq_true, decide_eq_true_eq, key] at h3
        have ea : 'A'.toNat = 65 := rfl
        have ef : 'F'.toNat = 70 := rfl
        omega
      · simp [h1, h2, h3] at h

/-- Any string of exactly four hexadecimal digits reads as a 16-bit value. -/
theorem hexValue_four_digits_lt (s : String) (hlen : s.length = 4)
    (hhex : s.data.all isHexDigit = true) :
    ∃ v, hexValue s = some v ∧ v < 2 ^ 16 := by
  obtain ⟨l⟩ := s
  match l, hlen, hhex with
  | [a, b, c, d], _, hhex =>
    simp only [List.all_cons, List.all_nil, Bool.and_true, Bool.and_eq_true] at hhex
    obtain ⟨ha, hb, hc, hd⟩ := hhex
    obtain ⟨va, ea, la⟩ := hexDigitValue_lt a ha
    obtain ⟨vb, eb, lb⟩ := hexDigitValue_lt b hb
    obtain ⟨vc, ec, lc⟩ := hexDigitValue_lt c hc
    obtain ⟨vd, ed, ld⟩ := hexDigitValue_lt d hd
    refine ⟨16 * (16 * (16 * (16 * 0 + va) + vb) + vc) + vd, ?_, by omega⟩
    simp [hexValue, hexValueAux, ea, eb, ec, ed]

/-! Properties of the constants -/

/-- C1: the service UUID string has exactly 36 characters; at the 0-based
positions 8, 13, 18 and 23 it has a hyphen and at every other position a
hexadecimal digit, so that it holds 4 hyphens and 32 hexadecimal digits in
the 8-4-4-4-12 layout. -/
theorem service_uuid_layout :
    BLE_UUID_ACTIVITY_SERVICE.length = 36 ∧
    (∀ i : Fin 36,
      if i.val = 8 ∨ i.val = 13 ∨ i.val = 18 ∨ i.val = 23 then
        BLE_UUID_ACTIVITY_SERVICE.data[i.val]? = some '-'
      else
        (BLE_UUID_ACTIVITY_SERVICE.data[i.val]?).map isHexDigit = some true) ∧
    (BLE_UUID_ACTIVITY_SERVICE.data.filter isHexDigit).length = 32 ∧
    (BLE_UUID_ACTIVITY_SERVICE.data.filter (fun c => c == '-')).length = 4 := by
  refine ⟨by decide, by decide, by decide, by decide⟩

/-- C2: the label and score characteristic identifiers are each exactly 4
characters long, each character is a hexadecimal digit (nothing else stands
before, between or after them), and each reads as a value below 2^16. -/
theorem characteristic_ids_four_hex :
    BLE_UUID_LABEL.length = 4 ∧ BLE_UUID_LABEL.data.all isHexDigit = true ∧
    BLE_UUID_SCORE.length = 4 ∧ BLE_UUID_SCORE.data.all isHexDigit = true ∧
    (∃ v, hexValue BLE_UUID_LABEL = some v ∧ v < 2 ^ 16) ∧
    (∃ v, hexValue BLE_UUID_SCORE = some v ∧ v < 2 ^ 16) := by
  refine ⟨by decide, by decide, by decide, by decide, ⟨0, by decide, by decide⟩,
    ⟨43690, by decide, by decide⟩⟩

/-- C3: the label and score characteristic identifiers are different strings
and read, as case-insensitive hexadecimal numbers, as different values. -/
theorem characteristic_ids_distinct :
    BLE_UUID_LABEL ≠ BLE_UUID_SCORE ∧
    ∃ a b, hexValue BLE_UUID_LABEL = some a ∧ hexValue BLE_UUID_SCORE = some b ∧ a ≠ b := by
  refine ⟨by decide, 0, 43690, by decide, by decide, by decide⟩

/-- C5: the service UUID string is in lowercase hyphenated form: every
character is one of 0-9, a-f or the hyphen, and none is an uppercase letter. -/
theorem service_uuid_lowercase :
    BLE_UUID_ACTIVITY_SERVICE.data.all isLowerUuidChar = true ∧
    BLE_UUID_ACTIVITY_SERVICE.data.any Char.isUpper = false := by
  refine ⟨by decide, by decide⟩

/-- C6: the validator of the service-UUID format accepts the value of
BLE_UUID_ACTIVITY_SERVICE, rejects the truncated string a2e2c2a6, and rejects
every string whose length is not 36. -/
theorem validator_accepts_service_uuid :
    isValidServiceUuid BLE_UUID_ACTIVITY_SERVICE = true ∧
    BLE_UUID_ACTIVITY_SERVICE = "a2e2c2a6-08c3-4d68-b80a-1fab55ba1dd0" ∧
    isValidServiceUuid "a2e2c2a6" = false ∧
    ∀ s : String, s.length ≠ 36 → isValidServiceUuid s = false := by
  refine ⟨by decide, rfl, by decide, ?_⟩
  intro s hs
  cases hv : isValidServiceUuid s with
  | false => rfl
  | true => exact absurd (isValidServiceUuid_length s hv) hs

/-- Witness for C6: the general rejection applied to the truncated string,
whose length is 8. -/
theorem validator_accepts_service_uuid_witness :
    "a2e2c2a6".length ≠ 36 ∧ isValidServiceUuid "a2e2c2a6" = false :=
  ⟨by decide, validator_accepts_service_uuid.2.2.2 "a2e2c2a6" (by decide)⟩

/-- C7: the service UUID has the shape of an RFC 4122 version-4 UUID: the
character at position 14 is 4, and the character at position 19 is one of
8, 9, a, b, a hexadecimal digit whose two top bits are 10. -/
theorem service_uuid_version4_variant1 :
    BLE_UUID_ACTIVITY_SERVICE.data[14]? = some '4' ∧
    ∃ c, BLE_UUID_ACTIVITY_SERVICE.data[19]? = some c ∧
      (c = '8' ∨ c = '9' ∨ c = 'a' ∨ c = 'b') ∧
      ∃ v, hexDigitValue c = some v ∧ v / 4 = 2 := by
  refine ⟨by decide, 'b', by decide, by decide, 11, by decide, by decide⟩

end BleUuid
